import Mathlib

/-
Verification of the diagnostic call-tracing facility in
SCons/Tool/MSCommon/common.py: the trace-flags configuration resolver
(_MSCOMMON.get_trace_display_traceflags), the log-file rotation helpers
(_MSCOMMON.rewrite_filename, _MSCOMMON._get_next_serialnbr), and the
trace hook (_MSCOMMON_TRACE.trace_current_module) with its scope filter
(is_allowed, is_ignored), stack walk, window slicing and rendering.

Python strings are modelled as `List Char` (`Str`); Python `None` and
exception propagation are modelled with `Option`.  External state that
the code only reads (the directory listing consulted by `glob.glob`,
the live frame stack) is passed in as an explicit argument.
-/

/-- Python strings, modelled as lists of characters. -/
abbrev Str := List Char

/-- Index (into `s`) of character positions where the substring `u` occurs,
meaning `u` is a prefix of `s.drop i`.  Used to model Python's `in` and
`str.rindex` substring primitives. -/
def occursAt (u s : Str) (i : Nat) : Bool :=
  u.isPrefixOf (s.drop i)

/-- Python `s.rindex(u)` as an `Option`: the largest index at which the
substring `u` occurs in `s`, or `none` when it does not occur
(Python raises ValueError there). -/
def lastSubstrIdx (u s : Str) : Option Nat :=
  ((List.range (s.length + 1)).filter (occursAt u s)).getLast?

/-- Python `u in s` substring containment. -/
def containsSub (u s : Str) : Bool :=
  (lastSubstrIdx u s).isSome

/-- Largest index of a character satisfying `p`, or `none`. -/
def lastIdxOf (p : Char → Bool) (s : Str) : Option Nat :=
  match s.reverse.findIdx? p with
  | some i => some (s.length - 1 - i)
  | none => none

/-- Python `str.strip(c)` for a one-character strip set: drop all leading
and all trailing occurrences of `c`. -/
def pyStrip (c : Char) (s : Str) : Str :=
  (((s.dropWhile (· = c)).reverse.dropWhile (· = c)).reverse)

/-- Python whitespace characters recognised by `str.strip()` / `int()`. -/
def pyIsSpace (c : Char) : Bool :=
  c = ' ' || c = '\t' || c = '\n' || c = '\r' || c = '\x0b' || c = '\x0c'

/-- Strip leading and trailing whitespace, as `int()` does before parsing. -/
def stripWSBoth (s : Str) : Str :=
  ((s.dropWhile pyIsSpace).reverse.dropWhile pyIsSpace).reverse

/-- Decimal digit string for a natural number (Python `str(n)` / `%d`). -/
def natStr (n : Nat) : Str :=
  Nat.toDigits 10 n

/-- Python `'%04d' % n`:  sign, then digits zero-padded to overall width 4. -/
def fmt04 (n : Int) : Str :=
  if n < 0 then
    let ds := Nat.toDigits 10 n.natAbs
    '-' :: (List.replicate (3 - ds.length) '0' ++ ds)
  else
    let ds := Nat.toDigits 10 n.toNat
    List.replicate (4 - ds.length) '0' ++ ds

/-- String repeated `n` times (Python `s * n`, empty for `n = 0`). -/
def repStr (s : Str) (n : Nat) : Str :=
  (List.replicate n s).flatten

/-- Value of a hexadecimal digit character. -/
def digitValHex (c : Char) : Nat :=
  if c.isDigit then c.toNat - 48
  else if 'a' ≤ c && c ≤ 'f' then c.toNat - 87
  else if 'A' ≤ c && c ≤ 'F' then c.toNat - 55
  else 0

/-- Digit characters of the numeric bases Python literals use. -/
def isDigitBase (b : Nat) (c : Char) : Bool :=
  if b = 2 then c = '0' || c = '1'
  else if b = 8 then '0' ≤ c && c ≤ '7'
  else if b = 16 then c.isDigit || ('a' ≤ c && c ≤ 'f') || ('A' ≤ c && c ≤ 'F')
  else c.isDigit

/-- No two adjacent underscores (Python digit-group underscore rule). -/
def noDoubleUnderscore : Str → Bool
  | [] => true
  | [_] => true
  | a :: b :: t => !(a = '_' && b = '_') && noDoubleUnderscore (b :: t)

/-- Digit run in base `b` with Python's underscore rules: nonempty, no
leading or trailing underscore, no doubled underscore, every other
character a base-`b` digit.  Returns the value. -/
def underscoredDigits (b : Nat) (s : Str) : Option Nat :=
  if s.head? ≠ some '_' ∧ s.getLast? ≠ some '_' ∧ s ≠ [] ∧
      noDoubleUnderscore s = true ∧ (s.all fun c => c = '_' || isDigitBase b c)
  then some ((s.filter (fun c => !(c = '_'))).foldl (fun a c => a * b + digitValHex c) 0)
  else none

/-- Digit run following a base prefix; Python permits one underscore
directly after the prefix (`0x_ff`). -/
def underscoredAfterPrefix (b : Nat) (t : Str) : Option Nat :=
  match t with
  | '_' :: t' => underscoredDigits b t'
  | _ => underscoredDigits b t

/-- Strings of zeros (with legal underscores): the only base-0 decimal
forms that may start with `0`. -/
def zerosOnly (s : Str) : Option Nat :=
  if s.head? ≠ some '_' ∧ s.getLast? ≠ some '_' ∧ s ≠ [] ∧
      noDoubleUnderscore s = true ∧ (s.all fun c => c = '0' || c = '_')
  then some 0
  else none

/-- Unsigned body of a Python base-0 integer literal: `0b`/`0o`/`0x`
prefixed forms, all-zero strings, or decimal not starting with `0`. -/
def pyUIntBody (s : Str) : Option Nat :=
  match s with
  | '0' :: c :: t =>
    if c = 'b' || c = 'B' then underscoredAfterPrefix 2 t
    else if c = 'o' || c = 'O' then underscoredAfterPrefix 8 t
    else if c = 'x' || c = 'X' then underscoredAfterPrefix 16 t
    else zerosOnly ('0' :: c :: t)
  | ['0'] => some 0
  | t => underscoredDigits 10 t

/-- Python `int(s, 0)`: strip whitespace, optional single sign, base-0 body. -/
def pyIntBase0 (s : Str) : Option Int :=
  match stripWSBoth s with
  | '+' :: r => (pyUIntBody r).map (fun n => (n : Int))
  | '-' :: r => (pyUIntBody r).map (fun n => -(n : Int))
  | t => (pyUIntBody t).map (fun n => (n : Int))

/-- Python `int(s)` (base 10): strip whitespace, optional sign, decimal
digits with underscore rules.  Leading zeros are legal in base 10. -/
def pyIntDec (s : Str) : Option Int :=
  match stripWSBoth s with
  | '+' :: r => (underscoredDigits 10 r).map (fun n => (n : Int))
  | '-' :: r => (underscoredDigits 10 r).map (fun n => -(n : Int))
  | t => (underscoredDigits 10 t).map (fun n => (n : Int))

/-- Lexicographic (code-point) comparison of strings, Python `sorted` order. -/
def lexLe : Str → Str → Bool
  | [], _ => true
  | _ :: _, [] => false
  | a :: as, b :: bs => if a = b then lexLe as bs else decide (a < b)

/-- Stable insertion for `pySorted`. -/
def insertLexLe (x : Str) : List Str → List Str
  | [] => [x]
  | y :: ys => if lexLe x y then x :: y :: ys else y :: insertLexLe x ys

/-- Python `sorted` on strings (stable, lexicographic ascending). -/
def pySorted : List Str → List Str
  | [] => []
  | x :: xs => insertLexLe x (pySorted xs)

/-- Strings are compared with decidable equality; extensional helpers on
`Option Str` come for free.  Portion of `os.path.splitext` (genericpath
`_splitext` with both Windows separators): split at the last dot when it
lies after the last path separator and some earlier character of the
basename is not a dot; otherwise the extension is empty. -/
def splitext (s : Str) : Str × Str :=
  let sepIdx : Int :=
    match lastIdxOf (fun c => c = '/' || c = '\\') s with
    | some i => (i : Int)
    | none => -1
  match lastIdxOf (fun c => c = '.') s with
  | none => (s, [])
  | some d =>
    if sepIdx < (d : Int) ∧
        ((s.drop (sepIdx + 1).toNat).take (d - (sepIdx + 1).toNat)).any (fun c => !(c = '.'))
    then (s.take d, s.drop d)
    else (s, [])

/-- Serial-number marker `-#` (`_MSCOMMON.FILENAME_SERIALNBR`). -/
def FILENAME_SERIALNBR : Str := "-#".toList

/-- Filenames in `files` matched by the one-star glob pattern
`root ++ "*" ++ ext` (the pattern built at common.py:169). -/
def globMatches (files : List Str) (root ext : Str) : List Str :=
  files.filter (fun name =>
    root.isPrefixOf name && ext.isSuffixOf name &&
      decide (root.length + ext.length ≤ name.length))

/-- Source `_MSCOMMON._get_next_serialnbr`: 1 when no file matches, otherwise one
past the number embedded in the lexicographically greatest match (root of
the match split at `-`, last segment, parsed as a decimal int).  `none`
models the `int()` call raising on a non-numeric segment. -/
def _get_next_serialnbr (ms : List Str) : Option Int :=
  if ms = [] then some 1
  else
    let sorted := pySorted ms
    let last := sorted.getLastD []
    let root := (splitext last).1
    let seg := (root.splitOn '-').getLastD []
    (pyIntDec seg).map (fun n => n + 1)

/-- Source `_MSCOMMON._get_filename`: root ++ `%04d` serial ++ ext. -/
def _get_filename (root : Str) (n : Int) (ext : Str) : Str :=
  root ++ fmt04 n ++ ext

/-- Source `_MSCOMMON.rewrite_filename`.  `files` is the target directory listing
consulted through `glob.glob`; `last_n` is the process-wide
`_MSCOMMON._last_n`; the result pairs the returned filename with the new
value of `_last_n` (`none` result models an uncaught exception from
`int()` during the directory scan). -/
def rewrite_filename (files : List Str) (filename : Str) (sync : Bool)
    (last_n : Option Int) : Option (Str × Option Int) :=
  if filename = [] then some (filename, last_n)
  else if (splitext filename).1 = [] ∨
      ¬ (FILENAME_SERIALNBR.isSuffixOf (splitext filename).1 = true) then
    some (filename, last_n)
  else
    match sync, last_n with
    | true, some n =>
      some (_get_filename (splitext filename).1.dropLast n (splitext filename).2, last_n)
    | _, _ =>
      match _get_next_serialnbr (globMatches files (splitext filename).1.dropLast
          (splitext filename).2) with
      | none => none
      | some n =>
        some (_get_filename (splitext filename).1.dropLast n (splitext filename).2,
          if sync then last_n else some n)

/-- Source `_MSCOMMON.modulelist_trace`. -/
def modulelist_trace : List Str :=
  ["lib".toList, "SCons".toList, "test".toList, "scons".toList]

/-- Source `_MSCOMMON.get_relative_filename`: suffix of `filename` starting at the
last occurrence of the first module name of `module_list` that occurs in
it, else `filename` itself. -/
def get_relative_filename (filename : Str) (module_list : List Str) : Str :=
  if filename = [] then filename
  else
    match module_list.findSome? (fun m => (lastSubstrIdx m filename).map (filename.drop ·)) with
    | some r => r
    | none => filename

/-- Truncate at the last dot (`relname[:ind]` with `ind = relname.rindex('.')`),
or keep the whole string when there is no dot. -/
def dropAfterLastDot (s : Str) : Str :=
  match lastIdxOf (fun c => c = '.') s with
  | some i => s.take i
  | none => s

/-- Backslash-to-slash normalisation (`modname.replace('\\', '/')`). -/
def replSep (c : Char) : Char :=
  if c = '\\' then '/' else c

/-- Source `_MSCOMMON.get_relative_module`. -/
def get_relative_module (filename : Str) (module_list : List Str) : Str :=
  if filename = [] then filename
  else if filename.head? = some '<' then filename
  else ((dropAfterLastDot (get_relative_filename filename module_list)).map replSep)

/-- Source `_MSCOMMON.get_module`. -/
def get_module (filename : Str) : Str :=
  if filename = [] then filename
  else if filename.head? = some '<' then filename
  else ((dropAfterLastDot filename).map replSep)

/-- Bitwise xor on unbounded two's-complement integers (Python `^`),
defined in the same case style as `Int.lor` / `Int.land`. -/
def pyLxor : Int → Int → Int
  | Int.ofNat m, Int.ofNat n => Int.ofNat (Nat.xor m n)
  | Int.ofNat m, Int.negSucc n => Int.negSucc (Nat.xor m n)
  | Int.negSucc m, Int.ofNat n => Int.negSucc (Nat.xor m n)
  | Int.negSucc m, Int.negSucc n => Int.ofNat (Nat.xor m n)

/-- Tokens of the restricted verbosity-expression fragment — integer
literals, identifiers, the bitwise and arithmetic operators of the
source's documented specifications, and parentheses.  CPython's
`compile` accepts a much larger language; this fragment is the part the
embedding evaluates, and it is a sound under-approximation: whatever it
accepts, CPython compiles and evaluates identically. -/
inductive Tok where
  | int (n : Nat)
  | ident (s : Str)
  | opOr
  | opXor
  | opAnd
  | opShl
  | opShr
  | opAdd
  | opSub
  | opMul
  | lpar
  | rpar
deriving DecidableEq, Repr

/-- Identifier start characters (ASCII letters and underscore). -/
def isIdentStart (c : Char) : Bool :=
  c.isAlpha || c = '_'

/-- Identifier continuation characters. -/
def isIdentChar (c : Char) : Bool :=
  c.isAlphanum || c = '_'

/-- Tokenizer worker for the restricted expression fragment, with a
structural fuel argument (each step consumes at least one character, so
the fuel passed by `tokenize` is never exhausted).  `none` only means
the string lies outside the fragment (for example `.`, `/`, `~`, `,`,
`**`): CPython's `compile` may still accept it, so tokenizer failure is
never treated as the program's compile failure — the resolver's error
discipline is proved against the abstract `CompileStageOutcome`
instead. -/
def tokenizeF : Nat → Str → Option (List Tok)
  | 0, _ => none
  | _ + 1, [] => some []
  | fuel + 1, c :: cs =>
    if c = ' ' || c = '\t' then tokenizeF fuel cs
    else if c = '|' then (tokenizeF fuel cs).map (Tok.opOr :: ·)
    else if c = '^' then (tokenizeF fuel cs).map (Tok.opXor :: ·)
    else if c = '&' then (tokenizeF fuel cs).map (Tok.opAnd :: ·)
    else if c = '+' then (tokenizeF fuel cs).map (Tok.opAdd :: ·)
    else if c = '-' then (tokenizeF fuel cs).map (Tok.opSub :: ·)
    else if c = '*' then (tokenizeF fuel cs).map (Tok.opMul :: ·)
    else if c = '(' then (tokenizeF fuel cs).map (Tok.lpar :: ·)
    else if c = ')' then (tokenizeF fuel cs).map (Tok.rpar :: ·)
    else if c = '<' then
      match cs with
      | '<' :: cs' => (tokenizeF fuel cs').map (Tok.opShl :: ·)
      | _ => none
    else if c = '>' then
      match cs with
      | '>' :: cs' => (tokenizeF fuel cs').map (Tok.opShr :: ·)
      | _ => none
    else if c.isDigit then
      match pyUIntBody (c :: cs.takeWhile isIdentChar) with
      | some n => (tokenizeF fuel (cs.dropWhile isIdentChar)).map (Tok.int n :: ·)
      | none => none
    else if isIdentStart c then
      (tokenizeF fuel (cs.dropWhile isIdentChar)).map
        (Tok.ident (c :: cs.takeWhile isIdentChar) :: ·)
    else none

/-- Tokenize a whole string. -/
def tokenize (s : Str) : Option (List Tok) :=
  tokenizeF (s.length + 1) s

/-- Abstract syntax of the restricted expressions. -/
inductive Expr where
  | lit (n : Nat)
  | var (s : Str)
  | binOr (a b : Expr)
  | binXor (a b : Expr)
  | binAnd (a b : Expr)
  | binShl (a b : Expr)
  | binShr (a b : Expr)
  | binAdd (a b : Expr)
  | binSub (a b : Expr)
  | binMul (a b : Expr)
  | neg (a : Expr)
  | pos (a : Expr)
deriving DecidableEq, Repr

/-- Recursive-descent parser over Python precedence levels (0 = `|`
lowest, 1 = `^`, 2 = `&`, 3 = shifts, 4 = additive, 5 = `*`, 6 = unary,
7 = atoms).  The mode argument `none` parses one expression at the given
level; `some a` continues the left-associative operator loop of the
level with accumulated left operand `a`.  The structural fuel passed by
`parseExprStr` is generous enough that it is never exhausted (each token
consumption or level descent costs one unit, nesting is bounded by the
token count). -/
def parseF : Nat → Nat → Option Expr → List Tok → Option (Expr × List Tok)
  | 0, _, _, _ => none
  | fuel + 1, lvl, none, ts =>
    if lvl = 7 then
      match ts with
      | Tok.int n :: rest => some (Expr.lit n, rest)
      | Tok.ident s :: rest => some (Expr.var s, rest)
      | Tok.lpar :: rest =>
        (match parseF fuel 0 none rest with
         | some (e, Tok.rpar :: rest') => some (e, rest')
         | _ => none)
      | _ => none
    else if lvl = 6 then
      match ts with
      | Tok.opSub :: rest => (parseF fuel 6 none rest).map (fun p => (Expr.neg p.1, p.2))
      | Tok.opAdd :: rest => (parseF fuel 6 none rest).map (fun p => (Expr.pos p.1, p.2))
      | _ => parseF fuel 7 none ts
    else
      match parseF fuel (lvl + 1) none ts with
      | none => none
      | some (a, rest) => parseF fuel lvl (some a) rest
  | fuel + 1, lvl, some a, ts =>
    let step := fun (mk : Expr → Expr → Expr) (rest : List Tok) =>
      match parseF fuel (lvl + 1) none rest with
      | none => none
      | some (b, rest') => parseF fuel lvl (some (mk a b)) rest'
    match lvl, ts with
    | 0, Tok.opOr :: rest => step Expr.binOr rest
    | 1, Tok.opXor :: rest => step Expr.binXor rest
    | 2, Tok.opAnd :: rest => step Expr.binAnd rest
    | 3, Tok.opShl :: rest => step Expr.binShl rest
    | 3, Tok.opShr :: rest => step Expr.binShr rest
    | 4, Tok.opAdd :: rest => step Expr.binAdd rest
    | 4, Tok.opSub :: rest => step Expr.binSub rest
    | 5, Tok.opMul :: rest => step Expr.binMul rest
    | _, _ => some (a, ts)

/-- Identifiers of an expression in left-to-right order (with repeats),
the raw material of the code object's `co_names`. -/
def Expr.namesRaw : Expr → List Str
  | .lit _ => []
  | .var s => [s]
  | .binOr a b => a.namesRaw ++ b.namesRaw
  | .binXor a b => a.namesRaw ++ b.namesRaw
  | .binAnd a b => a.namesRaw ++ b.namesRaw
  | .binShl a b => a.namesRaw ++ b.namesRaw
  | .binShr a b => a.namesRaw ++ b.namesRaw
  | .binAdd a b => a.namesRaw ++ b.namesRaw
  | .binSub a b => a.namesRaw ++ b.namesRaw
  | .binMul a b => a.namesRaw ++ b.namesRaw
  | .neg a => a.namesRaw
  | .pos a => a.namesRaw

/-- First-occurrence deduplication, as `co_names` keeps one entry per name. -/
def firstDedup (l : List Str) : List Str :=
  l.foldl (fun acc x => if x ∈ acc then acc else acc ++ [x]) []

/-- Source `co_names` of a compiled expression. -/
def Expr.names (e : Expr) : List Str :=
  firstDedup e.namesRaw

/-- Python `<<` on ints: negative shift counts raise ValueError (`none`). -/
def pyShl (a b : Int) : Option Int :=
  if b < 0 then none else some (a * 2 ^ b.toNat)

/-- Python `>>` on ints: floor division by the power of two; negative
shift counts raise ValueError (`none`). -/
def pyShr (a b : Int) : Option Int :=
  if b < 0 then none else some (Int.fdiv a (2 ^ b.toNat))

/-- Evaluate an expression under a symbol environment; `none` models an
exception escaping `eval` (the only sources in this operator set are
negative shift counts and, impossibly after the `co_names` check,
unknown names). -/
def evalExpr (env : Str → Option Int) : Expr → Option Int
  | .lit n => some (n : Int)
  | .var s => env s
  | .binOr a b => do pure (Int.lor (← evalExpr env a) (← evalExpr env b))
  | .binXor a b => do pure (pyLxor (← evalExpr env a) (← evalExpr env b))
  | .binAnd a b => do pure (Int.land (← evalExpr env a) (← evalExpr env b))
  | .binShl a b => do pyShl (← evalExpr env a) (← evalExpr env b)
  | .binShr a b => do pyShr (← evalExpr env a) (← evalExpr env b)
  | .binAdd a b => do pure ((← evalExpr env a) + (← evalExpr env b))
  | .binSub a b => do pure ((← evalExpr env a) - (← evalExpr env b))
  | .binMul a b => do pure ((← evalExpr env a) * (← evalExpr env b))
  | .neg a => do pure (-(← evalExpr env a))
  | .pos a => evalExpr env a

/-- Restricted-fragment instance of `compile(envstr, "<string>",
"eval")`: tokenize, parse a full level-0 expression, require the whole
token stream consumed.  On success the expression, its `co_names` and
its evaluation agree with CPython; on failure the string is merely
outside the fragment (CPython may or may not compile it), so no theorem
reads `none` here as the program raising — the compile outcome is
abstracted as `CompileStageOutcome` where the distinction matters. -/
def parseExprStr (s : Str) : Option Expr :=
  match tokenize s with
  | none => none
  | some ts =>
    match parseF (10 * ts.length + 20) 0 none ts with
    | some (e, []) => some e
    | _ => none

/-- Source `_MSCOMMON.TRACE_DISPLAY_FUNCTION_ARGLIST`. -/
def TRACE_DISPLAY_FUNCTION_ARGLIST : Int := 1

/-- Source `_MSCOMMON.TRACE_DISPLAY_FUNCTION_LOCATION`. -/
def TRACE_DISPLAY_FUNCTION_LOCATION : Int := 2

/-- Source `_MSCOMMON.TRACE_DISPLAY_RETURN_VALUES`. -/
def TRACE_DISPLAY_RETURN_VALUES : Int := 4

/-- Source `_MSCOMMON.TRACE_DISPLAY_ALLFRAMES_ONEBELOW`. -/
def TRACE_DISPLAY_ALLFRAMES_ONEBELOW : Int := 8

/-- Source `_MSCOMMON.TRACE_DISPLAY_DEFAULT` (arglist, location, return values). -/
def TRACE_DISPLAY_DEFAULT : Int :=
  Int.lor (Int.lor TRACE_DISPLAY_FUNCTION_ARGLIST TRACE_DISPLAY_FUNCTION_LOCATION)
    TRACE_DISPLAY_RETURN_VALUES

/-- Source `_MSCOMMON.TRACE_DISPLAY_SYMBOLS` (long names only). -/
def TRACE_DISPLAY_SYMBOLS : List (Str × Int) :=
  [("TRACE_DISPLAY_FUNCTION_ARGLIST".toList, TRACE_DISPLAY_FUNCTION_ARGLIST),
   ("TRACE_DISPLAY_FUNCTION_LOCATION".toList, TRACE_DISPLAY_FUNCTION_LOCATION),
   ("TRACE_DISPLAY_RETURN_VALUES".toList, TRACE_DISPLAY_RETURN_VALUES),
   ("TRACE_DISPLAY_ALLFRAMES_ONEBELOW".toList, TRACE_DISPLAY_ALLFRAMES_ONEBELOW)]

/-- The `"TRACE_DISPLAY_"` symbol-name shortening applied in
`get_trace_display_traceflags`. -/
def TRACE_DISPLAY_PREFIX : Str := "TRACE_DISPLAY_".toList

/-- The full symbol table: each long name plus, for names carrying the
prefix, its short alias. -/
def symbolTable : List (Str × Int) :=
  TRACE_DISPLAY_SYMBOLS.flatMap (fun p =>
    if TRACE_DISPLAY_PREFIX.isPrefixOf p.1 then
      [p, (p.1.drop TRACE_DISPLAY_PREFIX.length, p.2)]
    else [p])

/-- Symbol lookup (Python `co_name in symbols` / `symbols[co_name]`). -/
def symLookup (s : Str) : Option Int :=
  (symbolTable.find? (fun p => p.1 = s)).map (fun p => p.2)

/-- The quote-stripping loop at the head of `get_trace_display_traceflags`,
with a structural fuel argument (each iteration strips at least one
character, so the fuel passed by `stripQuotes` is never exhausted):
while the string starts and ends with the same quote character, strip
all leading/trailing such quotes; `none` reports that the string became
empty during stripping (in which case the caller uses the default).
The source's third branch (triple quotes) is subsumed by the first,
exactly as in Python. -/
def stripQuotesF : Nat → Str → Option Str
  | 0, s => some s
  | fuel + 1, s =>
    if s.head? = some '"' ∧ s.getLast? = some '"' then
      let s' := pyStrip '"' s
      if s' = [] then none else stripQuotesF fuel s'
    else if s.head? = some '\'' ∧ s.getLast? = some '\'' then
      let s' := pyStrip '\'' s
      if s' = [] then none else stripQuotesF fuel s'
    else some s

/-- Strip balanced outer quotes from the whole string. -/
def stripQuotes (s : Str) : Option Str :=
  stripQuotesF (s.length + 1) s

/-- Outcome of `get_trace_display_traceflags`: a resolved mask, or one of
the two fatal errors it raises. -/
inductive TraceflagsResult where
  | ok (mask : Int)
  | nameErr (symbol : Str)
  | valueErr (raw : Str)
deriving DecidableEq, Repr

/-- Outcome of the external CPython `compile(envstr, "<string>", "eval")`
call, which is runtime machinery outside this repository and is therefore
passed in abstractly, like the other external collaborators: either the
compile raised (SyntaxError), or it produced a code object, of which the
resolver consults only `co_names`. -/
inductive CompileStageOutcome where
  | syntaxError
  | code (co_names : List Str)
deriving DecidableEq, Repr

/-- The compile/co_names stage of `get_trace_display_traceflags`
(common.py:276-284) as a function of the external compile outcome: a
compile failure raises `ValueError` carrying the raw environment string;
a code object whose `co_names` holds an identifier outside the symbol
table raises `NameError` carrying the first such identifier; otherwise
(`none`) control falls through to the evaluation stage. -/
def resolveCompileStage (raw : Str) (outcome : CompileStageOutcome) :
    Option TraceflagsResult :=
  match outcome with
  | .syntaxError => some (.valueErr raw)
  | .code names =>
    match names.find? (fun n => (symLookup n).isNone) with
    | some bad => some (.nameErr bad)
    | none => none

/-- Source `_MSCOMMON.get_trace_display_traceflags`, with the
`SCONS_MSCOMMON_TRACEFLAGS` environment value passed in explicitly
(`none` = variable not defined).  The compile step is instantiated with
the restricted-fragment parser `parseExprStr` (whose successes agree
with CPython); its outcome is routed through `resolveCompileStage`.
`nameErr` models `NameError("Undefined trace display symbol: ...")` and
`valueErr` models `ValueError("Trace display compilation failed: ..." /
"Trace display evaluation failed: ...")`, both carrying what the
messages carry. -/
def get_trace_display_traceflags (envOpt : Option Str) : TraceflagsResult :=
  match envOpt with
  | none => .ok TRACE_DISPLAY_DEFAULT
  | some raw =>
    match stripQuotes raw with
    | none => .ok TRACE_DISPLAY_DEFAULT
    | some envstr =>
      match pyIntBase0 envstr with
      | some n => .ok n
      | none =>
        match parseExprStr envstr with
        | none => .valueErr raw
        | some ast =>
          match resolveCompileStage raw (CompileStageOutcome.code ast.names) with
          | some r => r
          | none =>
            match evalExpr symLookup ast with
            | some v => .ok v
            | none => .valueErr raw

/-- A live frame as consumed by the tracer: routine name (`f_code.co_name`),
source path (`f_code.co_filename`), current line (`f_lineno`), declared
parameter names (`co_varnames[:co_argcount]`), and the textual `repr` of
the live local bindings (`f_locals`), which the tracer only reads. -/
structure Frame where
  funcName : Str
  filename : Str
  lineno : Nat
  argNames : List Str
  localsRepr : List (Str × Str)
deriving DecidableEq, Repr

/-- Trace event kinds delivered by the runtime hook; `other` stands for
the remaining kinds (`line`, `exception`, ...) that the hook filters out. -/
inductive Event where
  | call
  | ret
  | other
deriving DecidableEq, Repr

/-- The `_MSCOMMON_TRACE` class configuration derived from the resolved
trace flags and the debug-logging mode: the four display switches plus
the ignore/allow lists (which depend on whether debug logging is active). -/
structure TraceConfig where
  displayFunctionArglist : Bool
  displayFunctionLocation : Bool
  displayReturnValues : Bool
  displayAllframesOnebelow : Bool
  returnIgnorelist : List (Str × Str)
  debugIgnorelist : List (Str × Str)
  debugAllowlistEnabled : Bool
  debugAllowlist : List (Str × Str)
deriving DecidableEq, Repr

/-- Source `_MSCOMMON_TRACE.FRAME_CALLER_FRAMES`. -/
def FRAME_CALLER_FRAMES : Nat := 5

/-- Source `_MSCOMMON_TRACE.FRAME_ARGUMENT_VALUES`. -/
def FRAME_ARGUMENT_VALUES : List Str :=
  ["version".toList, "msvc_version".toList, "name".toList, "key".toList,
   "path".toList, "value".toList, "host_arch".toList, "target_arch".toList,
   "vc_specific_version".toList, "vc_product".toList, "search_version".toList,
   "rollback".toList]

/-- Source `_MSCOMMON_TRACE.RETURN_IGNORELIST_FUNCTIONS`. -/
def RETURN_IGNORELIST_FUNCTIONS : List (Str × Str) :=
  [("lib/_weakrefset".toList, "_remove".toList),
   ("lib/codecs".toList, "__init__".toList),
   ("lib/subprocess".toList, "Close".toList),
   ("lib/subprocess".toList, "__del__".toList),
   ("lib/logging/__init__".toList, "debug".toList),
   ("SCons/Environment".toList, "__setitem__".toList),
   ("SCons/Environment".toList, "PrependENVPath".toList),
   ("SCons/Tool/MSCommon/sdk".toList, "__init__".toList),
   ("SCons/Tool/MSCommon/vs".toList, "__init__".toList),
   ("SCons/Tool/MSCommon/vc".toList, "__init__".toList),
   ("SCons/Tool/MSCommon/common".toList, "debug".toList),
   ("SCons/Tool/MSCommon/common".toList, "add_env".toList),
   ("SCons/Tool/MSCommon/common".toList, "write_script_env_cache".toList)]

/-- Source `_MSCOMMON_TRACE.DEBUG_IGNORELIST_FUNCTIONS`, which depends on
whether the debug log uses the `logging` module. -/
def DEBUG_IGNORELIST_FUNCTIONS (debugLogging : Bool) : List (Str × Str) :=
  if debugLogging then
    [("SCons/Tool/MSCommon/common".toList, "get_relative_filename".toList),
     ("SCons/Tool/MSCommon/common".toList, "filter".toList)]
  else
    [("SCons/Tool/MSCommon/common".toList, "debug".toList)]

/-- Source `_MSCOMMON_TRACE.DEBUG_ALLOWLIST_FUNCTIONS`. -/
def DEBUG_ALLOWLIST_FUNCTIONS : List (Str × Str) :=
  [("lib/logging/__init__".toList, "debug".toList)]

/-- Build the `_MSCOMMON_TRACE` configuration from a resolved mask and the
debug-logging mode, exactly as the class body computes its constants. -/
def mkTraceConfig (traceflags : Int) (debugLogging : Bool) : TraceConfig where
  displayFunctionArglist := Int.land traceflags TRACE_DISPLAY_FUNCTION_ARGLIST ≠ 0
  displayFunctionLocation := Int.land traceflags TRACE_DISPLAY_FUNCTION_LOCATION ≠ 0
  displayReturnValues := Int.land traceflags TRACE_DISPLAY_RETURN_VALUES ≠ 0
  displayAllframesOnebelow := Int.land traceflags TRACE_DISPLAY_ALLFRAMES_ONEBELOW ≠ 0
  returnIgnorelist := RETURN_IGNORELIST_FUNCTIONS
  debugIgnorelist := DEBUG_IGNORELIST_FUNCTIONS debugLogging
  debugAllowlistEnabled := debugLogging
  debugAllowlist := DEBUG_ALLOWLIST_FUNCTIONS

/-- Source `_MSCOMMON_TRACE.FRAME_INDENT_LITERAL` (two spaces). -/
def FRAME_INDENT_LITERAL : Str := "  ".toList

/-- Source `_MSCOMMON_TRACE.PARENT_MODULE` (`__name__.split('.')[-2]` of
`SCons.Tool.MSCommon.common`). -/
def PARENT_MODULE : Str := "MSCommon".toList

/-- Source `_MSCOMMON_TRACE.FRAME_TRACE_EVENTS`. -/
def FRAME_TRACE_EVENTS (cfg : TraceConfig) : List Event :=
  if cfg.displayReturnValues then [Event.call, Event.ret] else [Event.call]

/-- Source `list[-2:]` of `modname.split('/')` padded to a (parent, leaf) pair
with `None`, as `get_relmodule_caller_callee` computes for both the
caller and the callee. -/
def parentLeaf (modname : Str) : Option Str × Str :=
  match (modname.splitOn '/').reverse with
  | leaf :: parent :: _ => (some parent, leaf)
  | [leaf] => (none, leaf)
  | [] => (none, [])

/-- Source `_MSCOMMON_TRACE.get_relmodule_caller_callee` on a current-first stack
(`stack.head?` is the frame, the next entry its `f_back`): the callee's
relative module, the caller's (parent, leaf) modules, the callee's
(parent, leaf) modules; absent pieces are `none`. -/
def get_relmodule_caller_callee (stack : List Frame) :
    Str × (Option Str × Option Str) × (Option Str × Option Str) :=
  match stack with
  | [] => ([], (none, none), (none, none))
  | f :: rest =>
    let relmodule := get_relative_module f.filename modulelist_trace
    let ce := parentLeaf (get_module f.filename)
    let callee := (ce.1, some ce.2)
    match rest with
    | [] => (relmodule, (none, none), callee)
    | g :: _ =>
      let ca := parentLeaf (get_module g.filename)
      (relmodule, (ca.1, some ca.2), callee)

/-- Source `_MSCOMMON_TRACE.is_allowed`. -/
def is_allowed (cfg : TraceConfig) (event : Event) (relmodule function : Str) : Bool :=
  if cfg.displayAllframesOnebelow then true
  else if event = Event.call ∧ cfg.debugAllowlistEnabled = true ∧
      (relmodule, function) ∈ cfg.debugAllowlist then true
  else false

/-- Source `_MSCOMMON_TRACE.is_ignored`.  The two `*_IGNORELIST_ENABLED` class
constants are both `True` in the source.  `function.head? = some '<'`
renders the synthetic-frame test total (Python would fault on an empty
name, which `co_name` never is). -/
def is_ignored (cfg : TraceConfig) (event : Event) (relmodule function : Str) : Bool :=
  if event = Event.ret then
    decide ((relmodule, function) ∈ cfg.returnIgnorelist)
  else
    if (relmodule, function) ∈ cfg.debugIgnorelist then true
    else if cfg.displayAllframesOnebelow then false
    else if function.head? = some '<' then true
    else false

/-- The stack walk of `trace_current_module` (common.py:568-575) on the
current-first stack: returns the final `entry_slot` (distance, in frames,
from the current call of the *last* frame the walk saw whose filename
contains `PARENT_MODULE` — the walk runs from the current frame towards
the root and overwrites the slot at every match) and the root-first
frame chain it builds.  `none` slot means no frame matched. -/
def walkStack : List Frame → Option Nat × List Frame
  | [] => (none, [])
  | f :: rest =>
    let w := walkStack rest
    let slot :=
      match w.1 with
      | some k => some (k + 1)
      | none => if containsSub PARENT_MODULE f.filename then some 0 else none
    (slot, w.2 ++ [f])

/-- The window slice of `trace_current_module` (common.py:577-584): keep
up to `entry_slot + FRAME_CALLER_FRAMES` frames above the current one,
clipped to the chain. -/
def windowOfChain {α : Type} (entry_slot : Nat) (chain : List α) : List α :=
  let top :=
    if entry_slot + FRAME_CALLER_FRAMES ≥ chain.length then chain.length - 1
    else entry_slot + FRAME_CALLER_FRAMES
  chain.drop (chain.length - top - 1)

/-- Source `_MSCOMMON_TRACE.get_frame_arglist`: parenthesised parameter names,
with `=repr(value)` appended for names in `FRAME_ARGUMENT_VALUES`. -/
def get_frame_arglist (f : Frame) : Str :=
  let one := fun (name : Str) =>
    name ++
      (if name ∈ FRAME_ARGUMENT_VALUES then
        '=' :: ((f.localsRepr.find? (fun p => p.1 = name)).map (fun p => p.2)).getD []
      else [])
  '(' :: ((f.argNames.map one).intersperse (", ".toList)).flatten ++ [')']

/-- Source `_MSCOMMON_TRACE.display_frame` for one frame with its `f_back`:
the rendered line, plus the dash divider line when requested. -/
def display_frame (cfg : TraceConfig) (f : Frame) (fback : Option Frame)
    (indent : Str) (divider : Bool) : List Str :=
  let location :=
    if cfg.displayFunctionLocation then
      let current_file := get_relative_filename f.filename modulelist_trace
      let from_where :=
        match fback with
        | some b =>
          if b.filename = f.filename then
            " from ".toList ++ natStr b.lineno
          else
            " from ".toList ++ get_relative_filename b.filename modulelist_trace
              ++ ':' :: natStr b.lineno
        | none => []
      " <".toList ++ current_file ++ ':' :: natStr f.lineno ++ from_where ++ ['>']
    else []
  let arglist := if cfg.displayFunctionArglist then get_frame_arglist f else []
  let outstr := indent ++ f.funcName ++ arglist ++ location
  if divider ∧ FRAME_CALLER_FRAMES > 1 then
    [outstr, indent ++ List.replicate outstr.length '-']
  else [outstr]

/-- Source `_MSCOMMON_TRACE.display_frame_return`: the rendered return line for
`repr(arg) = argRepr`. -/
def display_frame_return (cfg : TraceConfig) (f : Frame) (argRepr : Str)
    (indent : Str) : Str :=
  let location :=
    if cfg.displayFunctionLocation then
      '(' :: (f.filename.splitOn '\\').getLastD [] ++ ':' :: natStr f.lineno ++ ") ".toList
    else [' ']
  indent ++ "return ".toList ++ f.funcName ++ location ++ "-> ".toList ++ argRepr

/-- The mutable chain state of `_MSCOMMON_TRACE`
(`FRAME_ENTRY_DEPTH`, `FRAME_ENTRY_LOCATION`, `FRAME_ENTRY_SLOT`,
`FRAME_LAST_CHAINLENGTH`). -/
structure TraceState where
  entryDepth : Int
  entryLocation : List (Str × Nat)
  entrySlot : Int
  lastChainLength : Nat
deriving DecidableEq, Repr

/-- The initial chain state of the class body. -/
def initialTraceState : TraceState where
  entryDepth := 0
  entryLocation := []
  entrySlot := -1
  lastChainLength := 0

/-- What `trace_current_module` returns to the runtime: itself (re-arm,
modelled as `hook`) or `None`. -/
inductive TraceRet where
  | hook
  | noneRet
deriving DecidableEq, Repr

/-- Display part of the chain reconstruction (common.py:577-642), for an
event whose stack walk found the home-module entry slot: window slicing,
new-chain versus continuation decision, rendering, and the state update.
Output is the list of lines passed to `print_message`, in order. -/
def traceChainDisplay (cfg : TraceConfig) (st : TraceState) (f : Frame)
    (rest : List Frame) (event : Event) (argRepr : Str) (entry_slot : Nat) :
    List Str × TraceState × TraceRet :=
  let chain0 := (walkStack (f :: rest)).2
  let backs : List (Option Frame) := none :: chain0.map some
  let window := windowOfChain entry_slot (chain0.zip backs)
  let entry_location := (window.take 1).map (fun p => (p.1.filename, p.1.lineno))
  let start_new_chain :=
    if st.entryLocation = [] then true else entry_location ≠ st.entryLocation
  if start_new_chain then
    let sep : List Str := if st.entryLocation ≠ [] then [[]] else []
    let divider_index := FRAME_CALLER_FRAMES - 1
    let lines :=
      (window.enum.map (fun p =>
        display_frame cfg p.2.1 p.2.2 (repStr FRAME_INDENT_LITERAL p.1)
          (p.1 = divider_index))).flatten
    (sep ++ lines,
      { entryDepth := (window.length : Int) - 1,
        entryLocation := entry_location,
        entrySlot := (entry_slot : Int),
        lastChainLength := window.length },
      TraceRet.hook)
  else
    let gap : Int := (window.length : Int) - (st.lastChainLength : Int)
    let fillLines :=
      if gap > 1 then
        let nIndent : Int := st.entryDepth + ((entry_slot : Int) - st.entrySlot - gap) + 1
        ((window.take gap.toNat).drop 1).enum.map (fun p =>
          (display_frame cfg p.2.1 p.2.2
            (repStr FRAME_INDENT_LITERAL (nIndent.toNat + p.1)) false))
      else []
    let nIndent : Int := st.entryDepth + ((entry_slot : Int) - st.entrySlot)
    let indent := repStr FRAME_INDENT_LITERAL nIndent.toNat
    let currentLines :=
      if event = Event.ret then
        [display_frame_return cfg f argRepr (indent ++ FRAME_INDENT_LITERAL)]
      else
        display_frame cfg f rest.head? indent false
    (fillLines.flatten ++ currentLines,
      { st with lastChainLength := window.length },
      TraceRet.hook)

/-- The chain-reconstruction tail of `trace_current_module`
(common.py:564-642), reached only for accepted, un-ignored events; the
outer `none` models the uncaught TypeError Python raises at
`entry_slot + FRAME_CALLER_FRAMES` when the walk found no home-module
frame. -/
def traceChain (cfg : TraceConfig) (st : TraceState) (f : Frame)
    (rest : List Frame) (event : Event) (argRepr : Str) :
    Option (List Str × TraceState × TraceRet) :=
  match (walkStack (f :: rest)).1 with
  | none => none
  | some entry_slot => some (traceChainDisplay cfg st f rest event argRepr entry_slot)

/-- Source `_MSCOMMON_TRACE.trace_current_module` on an explicit current-first
stack (`f` the frame the event fired in, `rest` its `f_back` chain).
Early returns of the source map to `some ([], st, .hook)` (event kind not
traced, scope rejection) and `some ([], st, .noneRet)` (ignore list). -/
def trace_current_module (cfg : TraceConfig) (st : TraceState) (f : Frame)
    (rest : List Frame) (event : Event) (argRepr : Str) :
    Option (List Str × TraceState × TraceRet) :=
  if event ∉ FRAME_TRACE_EVENTS cfg then some ([], st, TraceRet.hook)
  else if (get_relmodule_caller_callee (f :: rest)).2.2.1 ≠ some PARENT_MODULE ∧
      (get_relmodule_caller_callee (f :: rest)).2.1.1 ≠ some PARENT_MODULE then
    some ([], st, TraceRet.hook)
  else if (get_relmodule_caller_callee (f :: rest)).2.2.1 ≠ some PARENT_MODULE ∧
      is_allowed cfg event (get_relmodule_caller_callee (f :: rest)).1 f.funcName = false then
    some ([], st, TraceRet.hook)
  else if is_ignored cfg event (get_relmodule_caller_callee (f :: rest)).1 f.funcName = true then
    some ([], st, TraceRet.noneRet)
  else
    traceChain cfg st f rest event argRepr

/-- Scope acceptance: the event survives the two early scope rejections of
`trace_current_module` (common.py:549-557) and reaches the ignore-list
check and, unless ignored, the chain reconstruction. -/
def scopeAccepts (cfg : TraceConfig) (f : Frame) (rest : List Frame)
    (event : Event) : Bool :=
  let rmc := get_relmodule_caller_callee (f :: rest)
  decide (rmc.2.2.1 = some PARENT_MODULE) ||
    (decide (rmc.2.1.1 = some PARENT_MODULE) &&
      is_allowed cfg event rmc.1 f.funcName)

/-- Position (distance from the current call, current = 0) of the
*innermost* home-module frame, the one nearest the current call — the
frame the specification says the entry slot records. -/
def innermostHomeSlot (stack : List Frame) : Option Nat :=
  stack.findIdx? (fun fr => containsSub PARENT_MODULE fr.filename)

/-- Position (distance from the current call) of the *outermost*
(root-most, "top-most") home-module frame: the first match of the
reversed stack, re-expressed as a distance from the current call. -/
def outermostHomeSlot (stack : List Frame) : Option Nat :=
  (stack.reverse.findIdx? (fun fr => containsSub PARENT_MODULE fr.filename)).map
    (fun i => stack.length - 1 - i)

/-- All trace flags set (mask 15), logging-module debug off. -/
def cfgAllFlags : TraceConfig := mkTraceConfig 15 false

/-- Default trace flags (mask 7), logging-module debug off. -/
def cfgDefault : TraceConfig := mkTraceConfig 7 false

/-- Library frame two levels below the home module (callee of the C1
counterexample event). -/
def frameLibDecoder : Frame :=
  ⟨"decode".toList, "C:\\python\\lib\\json\\decoder.py".toList, 20, [], []⟩

/-- Library frame two levels below the home module (caller of the C1
counterexample event). -/
def frameLibScanner : Frame :=
  ⟨"loads".toList, "C:\\python\\lib\\json\\scanner.py".toList, 5, [], []⟩

/-- Library frame called from the home module (C2 counterexample callee). -/
def frameSubprocess : Frame :=
  ⟨"run".toList, "C:\\python\\lib\\subprocess.py".toList, 100, [], []⟩

/-- Home-module frame (C2 counterexample caller). -/
def frameVc : Frame :=
  ⟨"find_vc".toList, "C:\\scons\\SCons\\Tool\\MSCommon\\vc.py".toList, 47, [], []⟩

/-- Outer build-script frame at line `n` (C2 counterexample filler). -/
def frameMain (n : Nat) : Frame :=
  ⟨"step".toList, "C:\\scons\\SCons\\Script\\Main.py".toList, n, [], []⟩

/-- The caller chain of the C2 counterexample: the home-module frame
one above the current call, then six outer frames. -/
def c2callers : List Frame :=
  [frameVc, frameMain 2, frameMain 3, frameMain 4, frameMain 5, frameMain 6, frameMain 7]

/-- Innermost home-module frame of the C3 counterexample stack. -/
def frameVcG : Frame :=
  ⟨"g".toList, "C:\\scons\\SCons\\Tool\\MSCommon\\vc.py".toList, 10, [], []⟩

/-- Second (outer) home-module frame of the C3 counterexample stack. -/
def frameCommonH : Frame :=
  ⟨"h".toList, "C:\\scons\\SCons\\Tool\\MSCommon\\common.py".toList, 30, [], []⟩

/-- Outer non-home frame of the C3 counterexample stack. -/
def frameMainM : Frame :=
  ⟨"m".toList, "C:\\scons\\SCons\\Script\\Main.py".toList, 7, [], []⟩

/-- Root frame of the C3 counterexample stack. -/
def frameTop : Frame :=
  ⟨"top".toList, "C:\\scons\\scons.py".toList, 99, [], []⟩

/-- Home-module frame whose (module, function) pair sits on the call
ignore list (C4 witness). -/
def frameCommonDebug : Frame :=
  ⟨"debug".toList, "C:\\scons\\SCons\\Tool\\MSCommon\\common.py".toList, 294,
    ["message".toList], []⟩

/-- C5: each of the verbosity specification strings "15", "0b1111",
"0xF", "1+2+4+8" and "1|2|4|8" resolves to the mask value 15. -/
theorem c5_resolver_fifteen :
    get_trace_display_traceflags (some ("15".toList)) = TraceflagsResult.ok 15 ∧
    get_trace_display_traceflags (some ("0b1111".toList)) = TraceflagsResult.ok 15 ∧
    get_trace_display_traceflags (some ("0xF".toList)) = TraceflagsResult.ok 15 ∧
    get_trace_display_traceflags (some ("1+2+4+8".toList)) = TraceflagsResult.ok 15 ∧
    get_trace_display_traceflags (some ("1|2|4|8".toList)) = TraceflagsResult.ok 15 := by
  decide

/-- C7 counterexample: the claim says the initially-empty verbosity
string resolves to the default mask 7, but the resolver raises the
compilation ValueError on it — the became-empty check sits inside the
quote-stripping loop and is never reached for a string that is empty to
begin with. -/
theorem c7_counterexample :
    get_trace_display_traceflags (some []) = TraceflagsResult.valueErr [] ∧
    get_trace_display_traceflags (some []) ≠ TraceflagsResult.ok TRACE_DISPLAY_DEFAULT := by
  decide

/-- C7 amended: every verbosity string that becomes empty during the
iterative stripping of matching outer quote pairs (necessarily nonempty
to begin with) resolves to the default mask 7; the initially-empty
string instead raises the compilation value error. -/
theorem c7_default_after_stripping (s : Str) (h : stripQuotes s = none) :
    get_trace_display_traceflags (some s) = TraceflagsResult.ok 7 := by
  have hd : TRACE_DISPLAY_DEFAULT = 7 := by decide
  simp [get_trace_display_traceflags, h, hd]

/-- C7 witness: the two-character string consisting of two double quotes
strips to empty and resolves to the default. -/
theorem c7_default_after_stripping_witness :
    get_trace_display_traceflags (some ['"', '"']) = TraceflagsResult.ok 7 :=
  c7_default_after_stripping ['"', '"'] (by decide)

/-- C8: with directory entries "run-0001.log" and "run-0003.log",
template "run-#.log" rewrites to "run-0004.log"; with no matching
entries it rewrites to "run-0001.log". -/
theorem c8_rotation :
    rewrite_filename ["run-0001.log".toList, "run-0003.log".toList]
      ("run-#.log".toList) false none
      = some ("run-0004.log".toList, some 4) ∧
    rewrite_filename [] ("run-#.log".toList) false none
      = some ("run-0001.log".toList, some 1) := by
  decide

/-- C6: the resolver's error discipline, proved against every outcome of
the external CPython compile step (`CompileStageOutcome`): a verbosity
string that fails to compile yields the value error carrying the raw
environment string; one that compiles but whose `co_names` mention an
identifier outside the closed symbol table yields the named-symbol error
carrying such an unknown identifier; no stage verdict is ever a mask.
The last conjunct ties the stage function to the concrete resolver: for
expressions of the restricted fragment, where the embedded parser agrees
with CPython, the resolver returns exactly the stage's verdict. -/
theorem c6_resolver_errors (raw : Str) :
    resolveCompileStage raw CompileStageOutcome.syntaxError
      = some (TraceflagsResult.valueErr raw) ∧
    (∀ names, (∃ n ∈ names, symLookup n = none) →
      ∃ bad, symLookup bad = none ∧
        resolveCompileStage raw (CompileStageOutcome.code names)
          = some (TraceflagsResult.nameErr bad)) ∧
    (∀ outcome r, resolveCompileStage raw outcome = some r →
      ∀ m, r ≠ TraceflagsResult.ok m) ∧
    (∀ s, stripQuotes raw = some s → pyIntBase0 s = none →
      ∀ ast, parseExprStr s = some ast →
        ∀ r, resolveCompileStage raw (CompileStageOutcome.code ast.names) = some r →
          get_trace_display_traceflags (some raw) = r) := by
  refine ⟨rfl, ?_, ?_, ?_⟩
  · intro names hex
    have hfind : (names.find? (fun n => (symLookup n).isNone)).isSome := by
      rw [List.find?_isSome]
      obtain ⟨n, hn, hnone⟩ := hex
      exact ⟨n, hn, by simp [hnone]⟩
    obtain ⟨bad, hbad⟩ := Option.isSome_iff_exists.mp hfind
    refine ⟨bad, ?_, ?_⟩
    · have := List.find?_some hbad
      simpa [Option.isNone_iff_eq_none] using this
    · simp [resolveCompileStage, hbad]
  · intro outcome r hr m
    cases outcome with
    | syntaxError =>
      simp only [resolveCompileStage, Option.some.injEq] at hr
      rw [← hr]
      intro hc
      exact TraceflagsResult.noConfusion hc
    | code names =>
      simp only [resolveCompileStage] at hr
      cases hbad : names.find? (fun n => (symLookup n).isNone) with
      | none => rw [hbad] at hr; exact absurd hr (by simp)
      | some bad =>
        rw [hbad] at hr
        simp only [Option.some.injEq] at hr
        rw [← hr]
        intro hc
        exact TraceflagsResult.noConfusion hc
  · intro s h1 h2 ast hp r hr
    simp [get_trace_display_traceflags, h1, h2, hp, hr]

/-- C6 witness: "1+*2" with the compile step raising resolves to the
value error carrying the raw string, and "FOO|1" — a restricted-fragment
expression whose only unknown symbol is FOO — makes the concrete
resolver raise the named-symbol error carrying FOO. -/
theorem c6_resolver_errors_witness :
    resolveCompileStage ("1+*2".toList) CompileStageOutcome.syntaxError
      = some (TraceflagsResult.valueErr ("1+*2".toList)) ∧
    get_trace_display_traceflags (some ("FOO|1".toList))
      = TraceflagsResult.nameErr ("FOO".toList) := by
  constructor
  · exact (c6_resolver_errors ("1+*2".toList)).1
  · exact (c6_resolver_errors ("FOO|1".toList)).2.2.2
      ("FOO|1".toList) (by decide) (by decide)
      (Expr.binOr (Expr.var ("FOO".toList)) (Expr.lit 1)) (by decide)
      (TraceflagsResult.nameErr ("FOO".toList)) (by decide)

/-- C1 counterexample: with AllFramesOneBelow set, a call event whose
callee and caller both live two levels below the home module (parents
"json"/"json") is not ignore-listed, yet the scope filter rejects it and
the hook returns without rendering or touching state — the one-caller-
level restriction still applies. -/
theorem c1_counterexample :
    cfgAllFlags.displayAllframesOnebelow = true ∧
    is_ignored cfgAllFlags Event.call
      (get_relative_module frameLibDecoder.filename modulelist_trace)
      frameLibDecoder.funcName = false ∧
    (get_relmodule_caller_callee [frameLibDecoder, frameLibScanner]).2.2.1
      ≠ some PARENT_MODULE ∧
    (get_relmodule_caller_callee [frameLibDecoder, frameLibScanner]).2.1.1
      ≠ some PARENT_MODULE ∧
    scopeAccepts cfgAllFlags frameLibDecoder [frameLibScanner] Event.call = false ∧
    trace_current_module cfgAllFlags initialTraceState frameLibDecoder
      [frameLibScanner] Event.call []
      = some ([], initialTraceState, TraceRet.hook) := by
  decide

/-- C1 amended: with AllFramesOneBelow set the allow-list restriction is
bypassed (`is_allowed` is unconditionally true), so an event is
scope-accepted exactly when the callee's or the caller's enclosing
module is the home module; events with neither remain rejected even in
this mode. -/
theorem c1_allframes_scope (cfg : TraceConfig) (f : Frame) (rest : List Frame)
    (event : Event) (h : cfg.displayAllframesOnebelow = true) :
    scopeAccepts cfg f rest event = true ↔
      ((get_relmodule_caller_callee (f :: rest)).2.2.1 = some PARENT_MODULE ∨
        (get_relmodule_caller_callee (f :: rest)).2.1.1 = some PARENT_MODULE) := by
  unfold scopeAccepts is_allowed
  simp [h]

/-- C1 witness: with all flags set, a call from the home module into the
library one level below is scope-accepted. -/
theorem c1_allframes_scope_witness :
    scopeAccepts cfgAllFlags frameSubprocess c2callers Event.call = true :=
  (c1_allframes_scope cfgAllFlags frameSubprocess c2callers Event.call (by decide)).mpr
    (Or.inr (by decide))

/-- C2 counterexample: an accepted, displayed call event one level below
the home module, on a live stack eight frames deep with the home-module
frame one above the current call, renders a window of 7 frames
(recorded in `FRAME_LAST_CHAINLENGTH`), exceeding the claimed bound
`FRAME_CALLER_FRAMES + 1 = 6`. -/
theorem c2_counterexample :
    scopeAccepts cfgAllFlags frameSubprocess c2callers Event.call = true ∧
    (trace_current_module cfgAllFlags initialTraceState frameSubprocess c2callers
        Event.call []).map (fun r => r.2.1.lastChainLength) = some 7 ∧
    ¬ (7 ≤ FRAME_CALLER_FRAMES + 1) := by
  decide

/-- C2 amended: for a nonempty chain the window is nonempty and has at
most `entry_slot + FRAME_CALLER_FRAMES + 1` frames; the claimed bound
`FRAME_CALLER_FRAMES + 1` holds exactly when the recorded entry slot is
0, i.e. when the walk's home-module frame is the current call itself. -/
theorem c2_window_length_bounds {α : Type} (slot : Nat) (chain : List α)
    (h : chain ≠ []) :
    1 ≤ (windowOfChain slot chain).length ∧
    (windowOfChain slot chain).length ≤ slot + FRAME_CALLER_FRAMES + 1 := by
  have hl : 0 < chain.length := List.length_pos.mpr h
  unfold windowOfChain
  by_cases hc : slot + FRAME_CALLER_FRAMES ≥ chain.length
  · simp only [if_pos hc, List.length_drop]
    omega
  · simp only [if_neg hc, List.length_drop]
    omega

/-- C2 witness: window bounds at entry slot 1 on a two-element chain. -/
theorem c2_window_length_bounds_witness :
    1 ≤ (windowOfChain 1 [(10 : Nat), 20]).length ∧
    (windowOfChain 1 [(10 : Nat), 20]).length ≤ 1 + FRAME_CALLER_FRAMES + 1 :=
  c2_window_length_bounds 1 [10, 20] (by decide)

theorem findIdxQ_append {α : Type} (p : α → Bool) (l₁ l₂ : List α) :
    (l₁ ++ l₂).findIdx? p =
      (match l₁.findIdx? p with
       | some i => some i
       | none => (l₂.findIdx? p).map (· + l₁.length)) := by
  induction l₁ with
  | nil => simp
  | cons x xs ih =>
    simp only [List.cons_append, List.findIdx?_cons]
    by_cases hx : p x
    · simp [hx]
    · simp only [hx, if_neg, Bool.false_eq_true, List.findIdx?_succ, ih]
      cases hxs : xs.findIdx? p with
      | some i => simp
      | none =>
        simp only [Option.map_map, List.length_cons]
        congr 1

/-- C3 counterexample: an accepted, displayed call event whose stack
holds two home-module frames (distances 0 and 1 from the current call)
records entry slot 1 — the outer frame — while the innermost
home-module frame nearest the current call sits at distance 0. -/
theorem c3_counterexample :
    (trace_current_module cfgDefault initialTraceState frameVcG
        [frameCommonH, frameMainM, frameTop] Event.call []).map
      (fun r => r.2.1.entrySlot) = some 1 ∧
    innermostHomeSlot [frameVcG, frameCommonH, frameMainM, frameTop] = some 0 ∧
    outermostHomeSlot [frameVcG, frameCommonH, frameMainM, frameTop] = some 1 ∧
    ¬ ((1 : Int) = 0) := by
  decide

/-- C3 amended: the slot the stack walk records (and the chain
reconstructor stores in `FRAME_ENTRY_SLOT`) is the distance from the
current call of the *outermost* (root-most) home-module frame — the
"top-most module entry point" of the source comment — not the innermost
one; the walk also builds the root-first chain, the reversed stack. -/
theorem c3_walk_records_outermost (stack : List Frame) :
    (walkStack stack).1 = outermostHomeSlot stack ∧
    (walkStack stack).2 = stack.reverse := by
  induction stack with
  | nil => constructor <;> rfl
  | cons f rest ih =>
    unfold walkStack outermostHomeSlot
    constructor
    · simp only [List.reverse_cons,
        findIdxQ_append (fun fr => containsSub PARENT_MODULE fr.filename) rest.reverse [f]]
      have h2 := ih.1
      unfold outermostHomeSlot at h2
      cases hr : rest.reverse.findIdx? (fun fr => containsSub PARENT_MODULE fr.filename) with
      | some i =>
        have hlt : i < rest.length := by
          have := List.findIdx?_eq_some_iff_findIdx_eq.mp hr
          simpa using this.1
        rw [hr] at h2
        simp only [hr, h2]
        simp only [Option.map_some', List.length_cons, List.length_reverse]
        rw [Option.some.injEq]
        omega
      | none =>
        rw [hr] at h2
        simp only [hr, h2, Option.map_none, List.findIdx?_cons, List.findIdx?_nil]
        by_cases hf : containsSub PARENT_MODULE f.filename
        · simp [hf, List.length_reverse, List.length_cons]
        · simp [hf]
    · simp only [List.reverse_cons, ih.2]

theorem rmc_fst (f : Frame) (rest : List Frame) :
    (get_relmodule_caller_callee (f :: rest)).1
      = get_relative_module f.filename modulelist_trace := by
  cases rest <;> rfl

theorem rmc_callee (f : Frame) (rest : List Frame) :
    (get_relmodule_caller_callee (f :: rest)).2.2.1
      = (parentLeaf (get_module f.filename)).1 := by
  cases rest <;> rfl

theorem rmc_caller (f g : Frame) (rest : List Frame) :
    (get_relmodule_caller_callee (f :: g :: rest)).2.1.1
      = (parentLeaf (get_module g.filename)).1 := rfl

/-- C4: an event whose (relative-module, function) pair sits on the
event-kind-specific ignore list (return events consult the returns list,
call events the calls list) renders no line and leaves the chain state
untouched, under every configuration — including AllFramesOneBelow. -/
theorem c4_ignored_never_rendered (cfg : TraceConfig) (st : TraceState) (f : Frame)
    (rest : List Frame) (event : Event) (argRepr : Str)
    (h : (event = Event.ret ∧
        (get_relative_module f.filename modulelist_trace, f.funcName)
          ∈ cfg.returnIgnorelist) ∨
      (event = Event.call ∧
        (get_relative_module f.filename modulelist_trace, f.funcName)
          ∈ cfg.debugIgnorelist)) :
    (trace_current_module cfg st f rest event argRepr).map (fun r => (r.1, r.2.1))
      = some ([], st) := by
  have hig : is_ignored cfg event (get_relmodule_caller_callee (f :: rest)).1
      f.funcName = true := by
    rw [rmc_fst]
    rcases h with ⟨he, hm⟩ | ⟨he, hm⟩ <;> subst he <;> simp [is_ignored, hm]
  unfold trace_current_module
  split_ifs with h1 h2 h3
  all_goals rfl

/-- C4 witness: the home module's own `debug` function is call-ignored
under the all-flags configuration. -/
theorem c4_ignored_never_rendered_witness :
    (trace_current_module cfgAllFlags initialTraceState frameCommonDebug []
        Event.call []).map (fun r => (r.1, r.2.1)) = some ([], initialTraceState) :=
  c4_ignored_never_rendered cfgAllFlags initialTraceState frameCommonDebug []
    Event.call [] (Or.inr ⟨rfl, by decide⟩)

/-- C10: the shared rotation number `_last_n` is written only by a
`sync=False` call on a marked template, where it receives the freshly
scanned number; a `sync=True` call never modifies it — with a stored
number it reuses it, without one it scans fresh and does not record —
and empty or unmarked filenames pass through verbatim with the state
untouched. -/
theorem c10_last_n_discipline (files : List Str) (filename : Str) (sync : Bool)
    (last_n : Option Int) :
    ((filename = [] ∨ (splitext filename).1 = [] ∨
        FILENAME_SERIALNBR.isSuffixOf (splitext filename).1 = false) →
      rewrite_filename files filename sync last_n = some (filename, last_n)) ∧
    (sync = true → ∀ out st, rewrite_filename files filename sync last_n
        = some (out, st) → st = last_n) ∧
    (sync = false → filename ≠ [] → (splitext filename).1 ≠ [] →
      FILENAME_SERIALNBR.isSuffixOf (splitext filename).1 = true →
      rewrite_filename files filename sync last_n =
        (_get_next_serialnbr (globMatches files (splitext filename).1.dropLast
            (splitext filename).2)).map
          (fun n => (_get_filename (splitext filename).1.dropLast n
            (splitext filename).2, some n))) ∧
    (sync = true → filename ≠ [] → (splitext filename).1 ≠ [] →
      FILENAME_SERIALNBR.isSuffixOf (splitext filename).1 = true →
      ∀ k, last_n = some k →
        rewrite_filename files filename sync last_n =
          some (_get_filename (splitext filename).1.dropLast k
            (splitext filename).2, some k)) := by
  refine ⟨?_, ?_, ?_, ?_⟩
  · intro hc
    unfold rewrite_filename
    by_cases h1 : filename = []
    · simp [h1]
    · rw [if_neg h1]
      rcases hc with hc | hc | hc
      · exact absurd hc h1
      · rw [if_pos (Or.inl hc)]
      · rw [if_pos (Or.inr (by simp [hc]))]
  · intro hs out st heq
    subst hs
    unfold rewrite_filename at heq
    split_ifs at heq with h1 h2 h3
    · simp only [Option.some.injEq, Prod.mk.injEq] at heq
      exact heq.2.symm
    · simp only [Option.some.injEq, Prod.mk.injEq] at heq
      exact heq.2.symm
    · cases last_n with
      | some k =>
        simp only [Option.some.injEq, Prod.mk.injEq] at heq
        exact heq.2.symm
      | none =>
        cases hscan : _get_next_serialnbr (globMatches files
            (splitext filename).1.dropLast (splitext filename).2) with
        | none => rw [hscan] at heq; exact absurd heq (by simp)
        | some n =>
          rw [hscan] at heq
          simp only [Option.some.injEq, Prod.mk.injEq] at heq
          exact heq.2.symm
    · exact absurd rfl h3
  · intro hs hne hroot hmark
    subst hs
    unfold rewrite_filename
    rw [if_neg hne]
    rw [if_neg (by push_neg; exact ⟨hroot, by simp [hmark]⟩)]
    cases last_n with
    | some k =>
      cases hscan : _get_next_serialnbr (globMatches files
          (splitext filename).1.dropLast (splitext filename).2) with
      | none => simp [hscan]
      | some n => simp [hscan]
    | none =>
      cases hscan : _get_next_serialnbr (globMatches files
          (splitext filename).1.dropLast (splitext filename).2) with
      | none => simp [hscan]
      | some n => simp [hscan]
  · intro hs hne hroot hmark k hk
    subst hs
    subst hk
    unfold rewrite_filename
    rw [if_neg hne]
    rw [if_neg (by push_neg; exact ⟨hroot, by simp [hmark]⟩)]

/-- C10 witness: an unmarked filename passes through verbatim leaving the
stored number alone, and a marked `sync=True` call reuses the stored
number 2. -/
theorem c10_last_n_discipline_witness :
    rewrite_filename [] ("x.log".toList) false (some 2)
      = some ("x.log".toList, some 2) ∧
    rewrite_filename [] ("run-#.log".toList) true (some 2)
      = some (_get_filename ((splitext ("run-#.log".toList)).1.dropLast) 2
          ((splitext ("run-#.log".toList)).2), some 2) := by
  constructor
  · exact (c10_last_n_discipline [] ("x.log".toList) false (some 2)).1
      (Or.inr (Or.inr (by decide)))
  · exact (c10_last_n_discipline [] ("run-#.log".toList) true (some 2)).2.2.2
      rfl (by decide) (by decide) (by decide) 2 rfl

theorem splitOnP_headD_leads (p : Char → Bool) (s : Str) :
    ∃ b, s = (s.splitOnP p).headD [] ++ b := by
  induction s with
  | nil => exact ⟨[], by simp [List.splitOnP_nil]⟩
  | cons ch t ih =>
    rw [List.splitOnP_cons]
    by_cases hp : p ch
    · simp only [if_pos hp]
      exact ⟨ch :: t, rfl⟩
    · simp only [if_neg hp]
      cases hsp : t.splitOnP p with
      | nil => exact absurd hsp (List.splitOnP_ne_nil p t)
      | cons h0 r =>
        rw [hsp] at ih
        obtain ⟨b, hb⟩ := ih
        simp only [List.modifyHead, List.headD_cons] at hb ⊢
        exact ⟨b, by rw [hb]; rfl⟩

theorem mem_splitOnP_seg (p : Char → Bool) (x s : Str) (h : x ∈ s.splitOnP p) :
    ∃ a b, s = a ++ x ++ b := by
  induction s generalizing x with
  | nil =>
    rw [List.splitOnP_nil] at h
    simp only [List.mem_singleton] at h
    exact ⟨[], [], by simp [h]⟩
  | cons ch t ih =>
    rw [List.splitOnP_cons] at h
    by_cases hp : p ch
    · rw [if_pos hp] at h
      rcases List.mem_cons.mp h with hx | hx
      · exact ⟨[], ch :: t, by simp [hx]⟩
      · obtain ⟨a, b, hab⟩ := ih x hx
        exact ⟨ch :: a, b, by simp [hab]⟩
    · rw [if_neg hp] at h
      cases hsp : t.splitOnP p with
      | nil => exact absurd hsp (List.splitOnP_ne_nil p t)
      | cons h0 r =>
        rw [hsp] at h
        simp only [List.modifyHead, List.mem_cons] at h
        rcases h with hx | hx
        · obtain ⟨b, hb⟩ := splitOnP_headD_leads p t
          rw [hsp] at hb
          simp only [List.headD_cons] at hb
          exact ⟨[], b, by simp [hx, hb]⟩
        · obtain ⟨a, b, hab⟩ := ih x (hsp ▸ List.mem_cons_of_mem h0 hx)
          exact ⟨ch :: a, b, by simp [hab]⟩

theorem mem_splitOn_seg (c : Char) (x s : Str) (h : x ∈ s.splitOn c) :
    ∃ a b, s = a ++ x ++ b := by
  rw [List.splitOn] at h
  exact mem_splitOnP_seg _ x s h

theorem parentLeaf_some_mem (m P : Str) (h : (parentLeaf m).1 = some P) :
    P ∈ m.splitOn '/' := by
  unfold parentLeaf at h
  cases hrev : (m.splitOn '/').reverse with
  | nil => rw [hrev] at h; simp at h
  | cons leaf rest =>
    cases rest with
    | nil => rw [hrev] at h; simp at h
    | cons parent r2 =>
      rw [hrev] at h
      simp only [Option.some.injEq] at h
      rw [← h]
      have hm : parent ∈ (m.splitOn '/').reverse := by
        rw [hrev]
        exact List.mem_cons_of_mem _ (List.mem_cons_self _ _)
      exact List.mem_reverse.mp hm

theorem map_replSep_eq (u l : Str) (hu : '/' ∉ u) (h : l.map replSep = u) :
    l = u := by
  induction l generalizing u with
  | nil => simpa using h.symm
  | cons c t ih =>
    cases u with
    | nil => simp at h
    | cons d v =>
      simp only [List.map_cons, List.cons.injEq] at h
      have hud : d ≠ '/' ∧ '/' ∉ v := by
        constructor
        · intro hd; exact hu (hd ▸ List.mem_cons_self d v)
        · intro hv; exact hu (List.mem_cons_of_mem d hv)
      have hc : c = d := by
        by_cases hb : c = '\\'
        · exfalso
          apply hud.1
          rw [← h.1, hb]
          rfl
        · rw [← h.1]
          unfold replSep
          rw [if_neg hb]
      rw [hc, ih v hud.2 h.2]

theorem seg_map_replSep (u t : Str) (hu : '/' ∉ u)
    (h : ∃ a b, t.map replSep = a ++ u ++ b) : ∃ a b, t = a ++ u ++ b := by
  obtain ⟨a, b, hab⟩ := h
  have h1 : a ++ (u ++ b) = t.map replSep := by rw [hab, List.append_assoc]
  obtain ⟨t₁, t₂, ht, hm1, hm2⟩ := List.append_eq_map_iff.mp h1
  have h2 : u ++ b = t₂.map replSep := hm2.symm
  obtain ⟨t₃, t₄, ht2, hm3, hm4⟩ := List.append_eq_map_iff.mp h2
  have h3 : t₃ = u := map_replSep_eq u t₃ hu hm3
  exact ⟨t₁, t₄, by rw [ht, ht2, h3, List.append_assoc]⟩

theorem seg_dropAfterLastDot (u s : Str)
    (h : ∃ a b, dropAfterLastDot s = a ++ u ++ b) : ∃ a b, s = a ++ u ++ b := by
  unfold dropAfterLastDot at h
  cases hli : lastIdxOf (fun c => c = '.') s with
  | none => rw [hli] at h; exact h
  | some i =>
    rw [hli] at h
    simp only at h
    obtain ⟨a, b, hab⟩ := h
    refine ⟨a, b ++ s.drop i, ?_⟩
    conv_lhs => rw [← List.take_append_drop i s]
    rw [hab]
    simp [List.append_assoc]

theorem containsSub_of_seg (u s : Str) (h : ∃ a b, s = a ++ u ++ b) :
    containsSub u s = true := by
  obtain ⟨a, b, hab⟩ := h
  have hmem : a.length ∈ (List.range (s.length + 1)).filter (occursAt u s) := by
    rw [List.mem_filter]
    constructor
    · rw [List.mem_range, hab]
      simp only [List.length_append]
      omega
    · unfold occursAt
      have hd : s.drop a.length = u ++ b := by
        rw [hab, List.append_assoc]
        exact List.drop_left a (u ++ b)
      rw [hd]
      exact List.isPrefixOf_iff_prefix.mpr ⟨b, rfl⟩
  unfold containsSub lastSubstrIdx
  rw [List.getLast?_isSome]
  exact List.ne_nil_of_mem hmem

theorem get_module_parent_containsSub (fn : Str)
    (h : (parentLeaf (get_module fn)).1 = some PARENT_MODULE) :
    containsSub PARENT_MODULE fn = true := by
  by_cases hnil : fn = []
  · subst hnil
    exact absurd h (by decide)
  · by_cases hlt : fn.head? = some '<'
    · have hg : get_module fn = fn := by
        unfold get_module
        rw [if_neg hnil, if_pos hlt]
      rw [hg] at h
      exact containsSub_of_seg _ _ (mem_splitOn_seg '/' _ _ (parentLeaf_some_mem _ _ h))
    · have hg : get_module fn = (dropAfterLastDot fn).map replSep := by
        unfold get_module
        rw [if_neg hnil, if_neg hlt]
      rw [hg] at h
      have h1 := mem_splitOn_seg '/' _ _ (parentLeaf_some_mem _ _ h)
      have h2 := seg_map_replSep PARENT_MODULE _ (by decide) h1
      exact containsSub_of_seg _ _ (seg_dropAfterLastDot PARENT_MODULE fn h2)

theorem walkStack_slot_isSome (stack : List Frame) (g : Frame) (hg : g ∈ stack)
    (h : containsSub PARENT_MODULE g.filename = true) :
    (walkStack stack).1 ≠ none := by
  induction stack with
  | nil => exact absurd hg (List.not_mem_nil g)
  | cons f rest ih =>
    unfold walkStack
    cases hw : (walkStack rest).1 with
    | some k => simp [hw]
    | none =>
      rcases List.mem_cons.mp hg with hgf | hgr
      · subst hgf
        simp [hw, h]
      · exact absurd hw (ih hgr)

/-- C9: for every scope-accepted event the stack walk finds a frame whose
filename contains the home-module name, so the recorded entry slot is
defined (not `None`) and the window-slicing arithmetic cannot fault: the
hook always returns a value instead of raising. -/
theorem c9_accepted_entry_defined (cfg : TraceConfig) (st : TraceState) (f : Frame)
    (rest : List Frame) (event : Event) (argRepr : Str)
    (h : scopeAccepts cfg f rest event = true) :
    (walkStack (f :: rest)).1 ≠ none ∧
    (trace_current_module cfg st f rest event argRepr).isSome = true := by
  have hslot : (walkStack (f :: rest)).1 ≠ none := by
    unfold scopeAccepts at h
    simp only [Bool.or_eq_true, Bool.and_eq_true, decide_eq_true_eq] at h
    rcases h with hc | ⟨hc, _⟩
    · rw [rmc_callee] at hc
      exact walkStack_slot_isSome _ f (List.mem_cons_self _ _)
        (get_module_parent_containsSub _ hc)
    · cases rest with
      | nil =>
        rw [show (get_relmodule_caller_callee [f]).2.1.1 = none from rfl] at hc
        exact absurd hc (by simp)
      | cons g r =>
        rw [rmc_caller] at hc
        exact walkStack_slot_isSome _ g
          (List.mem_cons_of_mem _ (List.mem_cons_self _ _))
          (get_module_parent_containsSub _ hc)
  refine ⟨hslot, ?_⟩
  unfold trace_current_module
  split_ifs with h1 h2 h3 h4
  · rfl
  · rfl
  · rfl
  · unfold traceChain
    obtain ⟨k, hk⟩ := Option.ne_none_iff_exists'.mp hslot
    rw [hk]
    rfl
  · rfl

/-- C9 witness: the displayed C3 stack event is scope-accepted, its walk
slot is defined, and the hook returns a value. -/
theorem c9_accepted_entry_defined_witness :
    (walkStack (frameVcG :: [frameCommonH, frameMainM, frameTop])).1 ≠ none ∧
    (trace_current_module cfgDefault initialTraceState frameVcG
      [frameCommonH, frameMainM, frameTop] Event.call []).isSome = true :=
  c9_accepted_entry_defined cfgDefault initialTraceState frameVcG
    [frameCommonH, frameMainM, frameTop] Event.call [] (by decide)
